import Mathlib

/-!
# Verification of the GO-Print-Service badge renderer

Shallow embedding of the badge PDF generation service
(`internal/models`, `internal/cache/cache.go`, the `generator` package and
`internal/handlers/handlers.go`) and proofs about the claims of its
specification.

Conventions:
* Go `float64` values are modelled as exact rationals.  The file uses its own
  rational type `Q` (kept in normalized form by construction) instead of
  Mathlib's `ℚ` so that every concrete run of the embedded code reduces inside
  the kernel (`Rat`'s arithmetic is opaque to `decide` because it relies on
  well-founded `Nat.gcd`).  All arithmetic the claims exercise is exact, so no
  rounding behaviour of IEEE doubles is observable in them.
* Go `string` is modelled as Lean `String` / `List Char`.
* Go maps that the source iterates over are modelled as association lists in
  insertion order.
* External effects (HTTP, gofpdf, the qr library) are oracles bundled in an
  `Env` structure; the embedded code is parametric in them.
-/

namespace BadgeService

/-! ## Kernel-computable rationals -/

/-- Fuel-driven Euclid; the first argument strictly decreases, so fuel
`m + 1` always suffices for `gcdN m n`. -/
def fgcd : Nat → Nat → Nat → Nat
  | 0, _, n => n
  | _ + 1, 0, n => n
  | f + 1, m + 1, n => fgcd f (n % (m + 1)) (m + 1)

def gcdN (m n : Nat) : Nat := fgcd (m + 1) m n

/-- Exact rationals in lowest terms with positive denominator (maintained by
`Q.norm`; all constructors used in this file go through it or produce
denominator 1). -/
structure Q where
  num : Int
  den : Nat
deriving DecidableEq, Repr

/-- Normalize `n / d`.  The `d = 0` branch is unreachable in every execution
this file models (Go would produce ±Inf or NaN; no claim divides by zero). -/
def Q.norm (n d : Int) : Q :=
  if d = 0 then ⟨0, 0⟩
  else
    let n' := if d < 0 then -n else n
    let dn := d.natAbs
    let g := gcdN n'.natAbs dn
    ⟨n' / (g : Int), dn / g⟩

def Q.ofInt (i : Int) : Q := ⟨i, 1⟩

def Q.ofN (n : Nat) : Q := ⟨(n : Int), 1⟩

instance (n : Nat) : OfNat Q n := ⟨⟨(n : Int), 1⟩⟩

def Q.add (a b : Q) : Q :=
  Q.norm (a.num * (b.den : Int) + b.num * (a.den : Int)) ((a.den : Int) * b.den)

def Q.sub (a b : Q) : Q :=
  Q.norm (a.num * (b.den : Int) - b.num * (a.den : Int)) ((a.den : Int) * b.den)

def Q.mul (a b : Q) : Q := Q.norm (a.num * b.num) ((a.den : Int) * b.den)

def Q.div (a b : Q) : Q := Q.norm (a.num * (b.den : Int)) ((a.den : Int) * b.num)

def Q.neg (a : Q) : Q := ⟨-a.num, a.den⟩

instance : Add Q := ⟨Q.add⟩
instance : Sub Q := ⟨Q.sub⟩
instance : Mul Q := ⟨Q.mul⟩
instance : Div Q := ⟨Q.div⟩
instance : Neg Q := ⟨Q.neg⟩
instance : Inhabited Q := ⟨0⟩

/-- Boolean strict order (denominators are positive by construction). -/
def Q.blt (a b : Q) : Bool := a.num * (b.den : Int) < b.num * (a.den : Int)

def Q.ble (a b : Q) : Bool := a.num * (b.den : Int) ≤ b.num * (a.den : Int)

/-- Go's `int(x)` conversion: truncation toward zero. -/
def Q.toGoInt (a : Q) : Int :=
  if 0 ≤ a.num then a.num / (a.den : Int) else -((-a.num) / (a.den : Int))

/-! ## Data model (`internal/models/models.go`, src/unnamed/part_006) -/

structure Position where
  x : Q
  y : Q
deriving DecidableEq, Repr

structure Size where
  width : Q
  height : Q
deriving DecidableEq, Repr

structure Style where
  fontSize : Q
  fontFamily : String
  fontWeight : String
  color : String
  textAlign : String
  opacity : Q
  backgroundColor : String
  rotation : Q
deriving DecidableEq, Repr

structure ContainerLayout where
  type : String
  flexDirection : String
  justifyContent : String
  alignItems : String
  flexGap : Int
  flexWrap : String
deriving DecidableEq, Repr

/- `models.Layer`: a node of the layer tree (`children` only used by
containers).  The children list is a mutually-defined `LayerList` instead of
`List Layer` so that the renderer's recursion over the tree is structural and
therefore evaluable by the kernel. -/
mutual
inductive Layer where
  | mk (id type content dataBinding : String)
       (position : Position) (size : Size) (style : Style)
       (children : LayerList) (zIndex : Int) (visible : Bool)
       (containerLayout : Option ContainerLayout) (autoFontSize : Bool)

inductive LayerList where
  | nil
  | cons (head : Layer) (tail : LayerList)
end

def LayerList.toList : LayerList → List Layer
  | .nil => []
  | .cons h t => h :: t.toList

def LayerList.ofList : List Layer → LayerList
  | [] => .nil
  | h :: t => .cons h (LayerList.ofList t)

def Layer.id : Layer → String
  | .mk i _ _ _ _ _ _ _ _ _ _ _ => i

def Layer.type : Layer → String
  | .mk _ t _ _ _ _ _ _ _ _ _ _ => t

def Layer.content : Layer → String
  | .mk _ _ c _ _ _ _ _ _ _ _ _ => c

def Layer.dataBinding : Layer → String
  | .mk _ _ _ d _ _ _ _ _ _ _ _ => d

def Layer.position : Layer → Position
  | .mk _ _ _ _ p _ _ _ _ _ _ _ => p

def Layer.size : Layer → Size
  | .mk _ _ _ _ _ s _ _ _ _ _ _ => s

def Layer.style : Layer → Style
  | .mk _ _ _ _ _ _ st _ _ _ _ _ => st

def Layer.children : Layer → LayerList
  | .mk _ _ _ _ _ _ _ cs _ _ _ _ => cs

/-- The children as a plain list (for the non-recursive helpers). -/
def Layer.childList (l : Layer) : List Layer := l.children.toList

def Layer.zIndex : Layer → Int
  | .mk _ _ _ _ _ _ _ _ z _ _ _ => z

def Layer.visible : Layer → Bool
  | .mk _ _ _ _ _ _ _ _ _ v _ _ => v

def Layer.containerLayout : Layer → Option ContainerLayout
  | .mk _ _ _ _ _ _ _ _ _ _ cl _ => cl

def Layer.autoFontSize : Layer → Bool
  | .mk _ _ _ _ _ _ _ _ _ _ _ a => a

structure Settings where
  paperWidth : Q
  paperHeight : Q
  dpi : Int
  orientation : String
  defaultLanguage : String
  rtlSupport : Bool
deriving Repr

structure TemplateDesign where
  layers : List Layer
  settings : Settings

/-- `models.Template`.  `assets` is a Go `map[string]string`; it is modelled
as an association list, iterated in list order (Go map iteration order is
unspecified; no claim depends on the order for multi-match lookups). -/
structure Template where
  id : Int
  adminId : String
  eventId : Int
  name : String
  design : TemplateDesign
  assets : List (String × String)
  width : Q
  height : Q

structure CustomFieldValue where
  fieldId : String
  name : String
  fieldType : String
  value : String
  label : String
deriving DecidableEq, Repr

structure User where
  id : String
  firstName : String
  lastName : String
  email : String
  identifier : String
  customFieldValues : List CustomFieldValue
deriving DecidableEq, Repr

/-- `models.User.GetFieldValue`: linear scan, first match by `fieldId`,
empty string when absent. -/
def User.GetFieldValue (u : User) (fieldID : String) : String :=
  match u.customFieldValues.find? (fun cf => cf.fieldId = fieldID) with
  | some cf => cf.value
  | none => ""

/-! ## Flex layout (`generator.calculateFlexPositions`) -/

/-- `calculateFlexPositions` from the generator: computes per-child offsets
relative to the container's top-left; faithful translation including the
`spacing > 0` guard inside the assignment loop. -/
def calculateFlexPositions (container : Layer) (layout : ContainerLayout) :
    List Position :=
  let children := container.childList
  if children.length = 0 then []
  else
    let isRow := layout.flexDirection = "row"
    let gap : Q := Q.ofInt layout.flexGap
    let totalSize : Q :=
      (children.foldl
        (fun acc c => acc + (if isRow then c.size.width else c.size.height)) 0)
      + gap * (Q.ofN children.length - 1)
    let containerSize : Q :=
      if isRow then container.size.width else container.size.height
    let n : Q := Q.ofN children.length
    let startSpacing : Q × Q :=
      if layout.justifyContent = "center" then ((containerSize - totalSize) / 2, 0)
      else if layout.justifyContent = "flex-end" then (containerSize - totalSize, 0)
      else if layout.justifyContent = "space-between" then
        (0, if children.length > 1 then
              (containerSize - totalSize + gap * (n - 1)) / (n - 1)
            else 0)
      else if layout.justifyContent = "space-around" then
        let s := (containerSize - totalSize + gap * (n - 1)) / (n * 2)
        (s, s)
      else if layout.justifyContent = "space-evenly" then
        let s := (containerSize - totalSize + gap * (n - 1)) / (n + 1)
        (s, s)
      else (0, 0)
    let startPos := startSpacing.1
    let spacing := startSpacing.2
    let crossAlign : Q → Q → Q := fun childSize containerCrossSize =>
      if layout.alignItems = "center" then (containerCrossSize - childSize) / 2
      else if layout.alignItems = "flex-end" then containerCrossSize - childSize
      else 0
    let step : (List Position × Q) → Layer → (List Position × Q) :=
      fun acc child =>
        let ps := acc.1
        let currentPos := acc.2
        if isRow then
          let p : Position :=
            ⟨currentPos, crossAlign child.size.height container.size.height⟩
          let next := currentPos + child.size.width + gap
          let next := if Q.blt 0 spacing then next + spacing - gap else next
          (ps ++ [p], next)
        else
          let p : Position :=
            ⟨crossAlign child.size.width container.size.width, currentPos⟩
          let next := currentPos + child.size.height + gap
          let next := if Q.blt 0 spacing then next + spacing - gap else next
          (ps ++ [p], next)
    (children.foldl step ([], startPos)).1

/-! ### Concrete flex instance of claim C1 -/

def defaultStyle : Style :=
  ⟨0, "", "", "", "", 0, "", 0⟩

def c1Child : Layer :=
  .mk "child" "shape" "" "" ⟨0, 0⟩ ⟨20, 20⟩ defaultStyle .nil 0 true none false

def c1Layout (justify : String) : ContainerLayout :=
  ⟨"flex", "row", justify, "", 0, ""⟩

def c1Container (justify : String) : Layer :=
  .mk "c" "container" "" "" ⟨0, 0⟩ ⟨100, 100⟩ defaultStyle
    (LayerList.ofList [c1Child, c1Child, c1Child]) 0 true (some (c1Layout justify)) false

/-- The x-offsets `calculateFlexPositions` assigns in the C1 scenario. -/
def c1Xs (justify : String) : List Q :=
  (calculateFlexPositions (c1Container justify) (c1Layout justify)).map Position.x

/-! ## Go strings / regexp helpers

The generator uses two whitespace notions: `strings.TrimSpace` trims by
`unicode.IsSpace`, while the collapse step uses the RE2 class `\s`, which is
exactly `[\t\n\f\r ]`. -/

/-- RE2 `\s` (Go `regexp`): tab, newline, form feed, carriage return, space. -/
def goRegexSpace (c : Char) : Bool :=
  c = ' ' ∨ c = '\t' ∨ c = '\n' ∨ c = '\x0c' ∨ c = '\r'

/-- Go `unicode.IsSpace`: `\t`–`\r`, space, NEL, NBSP plus the Unicode
White_Space code points. -/
def goUnicodeSpace (c : Char) : Bool :=
  let n := c.toNat
  (9 ≤ n ∧ n ≤ 13) ∨ n = 32 ∨ n = 0x85 ∨ n = 0xA0 ∨
  n = 0x1680 ∨ (0x2000 ≤ n ∧ n ≤ 0x200A) ∨
  n = 0x2028 ∨ n = 0x2029 ∨ n = 0x202F ∨ n = 0x205F ∨ n = 0x3000

/-- `strings.TrimSpace`: drop `unicode.IsSpace` characters from both ends. -/
def goTrimSpaceList (l : List Char) : List Char :=
  ((l.dropWhile goUnicodeSpace).reverse.dropWhile goUnicodeSpace).reverse

def goTrimSpace (s : String) : String := String.mk (goTrimSpaceList s.toList)

/-- `whitespaceRegex.ReplaceAllString(s, " ")` for `whitespaceRegex = \s+`:
single left-to-right pass replacing each maximal `\s` run by one space.  The
`inRun` flag records that the previous character was part of a run. -/
def collapseWsAux : Bool → List Char → List Char
  | _, [] => []
  | inRun, c :: rest =>
    if goRegexSpace c then
      if inRun then collapseWsAux true rest
      else ' ' :: collapseWsAux true rest
    else c :: collapseWsAux false rest

def collapseWsList (l : List Char) : List Char := collapseWsAux false l

/-- The fixed prefix of `placeholderRegex = \{\{customFields\.([a-f0-9-]+)\}\}`. -/
def phPfx : List Char := "\x7b\x7bcustomFields.".toList

/-- Character class `[a-f0-9-]` of the placeholder regex (lowercase only). -/
def isFieldChar (c : Char) : Bool :=
  ('a' ≤ c ∧ c ≤ 'f') ∨ ('0' ≤ c ∧ c ≤ '9') ∨ c = '-'

/-- Try to match `placeholderRegex` at the head of `l`; on success return the
captured field id and the remainder after the closing braces.  Because `}` is
not in `[a-f0-9-]`, the capture is the maximal class run, exactly RE2's
behaviour for this pattern. -/
def matchPh (l : List Char) : Option (String × List Char) :=
  if phPfx.isPrefixOf l then
    let rest := l.drop phPfx.length
    let cap := rest.takeWhile isFieldChar
    let rest2 := rest.drop cap.length
    if cap ≠ [] ∧ ['\x7d', '\x7d'].isPrefixOf rest2 then
      some (String.mk cap, rest2.drop 2)
    else none
  else none

/-- `placeholderRegex.ReplaceAllStringFunc`: scan left to right, replacing
each leftmost non-overlapping match.  Fuel-driven so that the kernel can
evaluate it; `fuel = l.length` always suffices (each consumed match removes at
least one character). -/
def replaceAllAux (repl : String → String) : Nat → List Char → List Char
  | 0, l => l
  | _ + 1, [] => []
  | f + 1, c :: rest =>
    match matchPh (c :: rest) with
    | some (cap, after) => (repl cap).toList ++ replaceAllAux repl f after
    | none => c :: replaceAllAux repl f rest

def replaceAllList (repl : String → String) (l : List Char) : List Char :=
  replaceAllAux repl l.length l

/-- `generator.resolvePlaceholders`: empty-input shortcut, then regex
replacement via `User.GetFieldValue`, then `strings.TrimSpace`, then the
`\s+ → " "` collapse. -/
def resolvePlaceholders (u : User) (content : String) : String :=
  if content = "" then ""
  else
    let result := String.mk (replaceAllList (fun fid => u.GetFieldValue fid) content.toList)
    let result := goTrimSpace result
    String.mk (collapseWsList result.toList)

/-! ### Spec-side formulations for claim C5

The specification describes `resolve` as: replace every regex match by the
field value, then strip leading/trailing whitespace, then collapse every
internal whitespace run to one space.  The following definitions formalise
that wording with recursions of a different shape than the embedded source
(leftmost-match splitting instead of character scanning; trailing-then-leading
trim; map-then-squeeze collapse), so that the equivalence theorem has actual
content. -/

/-- Leftmost regex match, as a `(prefix, capture, suffix)` split. -/
def findPh : List Char → Option (List Char × String × List Char)
  | [] => none
  | c :: rest =>
    match matchPh (c :: rest) with
    | some (cap, after) => some ([], cap, after)
    | none => (findPh rest).map (fun x => (c :: x.1, x.2.1, x.2.2))

/-- Replace every match, formulated by repeatedly splitting at the leftmost
match (fuel-driven; `fuel = l.length` suffices). -/
def specReplaceAux (repl : String → String) : Nat → List Char → List Char
  | 0, l => l
  | f + 1, l =>
    match findPh l with
    | none => l
    | some (pre, cap, after) => pre ++ (repl cap).toList ++ specReplaceAux repl f after

def specReplace (repl : String → String) (l : List Char) : List Char :=
  specReplaceAux repl l.length l

/-- Strip whitespace: trailing first, then leading. -/
def specTrim (l : List Char) : List Char :=
  ((l.reverse.dropWhile goUnicodeSpace).reverse).dropWhile goUnicodeSpace

/-- Merge adjacent spaces into one. -/
def squeezeSpaces : List Char → List Char
  | [] => []
  | [c] => [c]
  | a :: b :: rest =>
    if a = ' ' ∧ b = ' ' then squeezeSpaces (b :: rest)
    else a :: squeezeSpaces (b :: rest)

/-- Collapse every whitespace run to a single space: first map each `\s`
character to a plain space, then squeeze adjacent spaces. -/
def specCollapse (l : List Char) : List Char :=
  squeezeSpaces (l.map (fun c => if goRegexSpace c then ' ' else c))

/-- The resolver as the specification words it. -/
def specResolve (u : User) (content : String) : String :=
  String.mk
    (specCollapse (specTrim
      (specReplace (fun fid => u.GetFieldValue fid) content.toList)))

/-! ## Go 1.21 `sort.Slice`

`Generate` sorts the root layers with `sort.Slice`, which Go implements with
pdqsort (`sort/zsortfunc.go`, Go 1.21 — the toolchain pinned by the
Dockerfile).  The algorithm below is a faithful transcription over immutable
arrays.  Loops are fuel-driven so the kernel can evaluate them; every fuel
budget passed strictly dominates the loop's iteration count, so the fuel-0
fallbacks are unreachable.  Out-of-range accesses never occur in the
executions modelled; `aswap`/`lessAt` make them harmless no-ops. -/

def aswap {α : Type} (a : Array α) (i j : Nat) : Array α :=
  match a[i]?, a[j]? with
  | some x, some y => (a.setD i y).setD j x
  | _, _ => a

def lessAt {α : Type} (less : α → α → Bool) (a : Array α) (i j : Nat) : Bool :=
  match a[i]?, a[j]? with
  | some x, some y => less x y
  | _, _ => false

/-- Inner loop of `insertionSort_func`: move element `j` left while smaller
than its predecessor (stops at `lo`). -/
def insertionInner {α : Type} (less : α → α → Bool) (lo : Nat) :
    Array α → Nat → Array α
  | a, 0 => a
  | a, j + 1 =>
    if j + 1 > lo ∧ lessAt less a (j + 1) j then
      insertionInner less lo (aswap a (j + 1) j) j
    else a

/-- `insertionSort_func(data, lo, hi)`. -/
def insertionSortRange {α : Type} (less : α → α → Bool) (lo hi : Nat)
    (a : Array α) : Array α :=
  (List.range (hi - (lo + 1))).foldl
    (fun acc k => insertionInner less lo acc (lo + 1 + k)) a

/-- `siftDown_func` (fuel ≥ `hi` suffices: the root strictly increases). -/
def siftDownAux {α : Type} (less : α → α → Bool) (first hi : Nat) :
    Nat → Array α → Nat → Array α
  | 0, a, _ => a
  | f + 1, a, root =>
    let child := 2 * root + 1
    if child ≥ hi then a
    else
      let child :=
        if child + 1 < hi ∧ lessAt less a (first + child) (first + child + 1)
        then child + 1 else child
      if lessAt less a (first + root) (first + child) = false then a
      else siftDownAux less first hi f (aswap a (first + root) (first + child)) child

def siftDown {α : Type} (less : α → α → Bool) (first hi : Nat) (a : Array α)
    (root : Nat) : Array α :=
  siftDownAux less first hi (hi + 1) a root

/-- `heapSort_func(data, lo, hi)`. -/
def heapSortRange {α : Type} (less : α → α → Bool) (lo hi : Nat)
    (a : Array α) : Array α :=
  let n := hi - lo
  let a := (List.range ((n - 1) / 2 + 1)).foldl
    (fun acc k => siftDown less lo n acc ((n - 1) / 2 - k)) a
  (List.range n).foldl
    (fun acc k =>
      let i := n - 1 - k
      siftDown less lo i (aswap acc lo (lo + i)) 0) a

/-- One step of the `xorshift` generator used by `breakPatterns_func`. -/
def xorshiftNext (x : Nat) : Nat :=
  let m := 2 ^ 64
  let x := (x ^^^ (x <<< 13)) % m
  let x := x ^^^ (x >>> 7)
  (x ^^^ (x <<< 17)) % m

/-- Fuel-driven binary logarithm (`Nat.log2` itself is well-founded and does
not reduce in the kernel); fuel `n` suffices for input `n`. -/
def log2Fuel : Nat → Nat → Nat
  | 0, _ => 0
  | f + 1, n => if n ≥ 2 then log2Fuel f (n / 2) + 1 else 0

/-- `bits.Len` for the values arising here. -/
def bitsLen (n : Nat) : Nat := if n = 0 then 0 else log2Fuel n n + 1

/-- `nextPowerOfTwo` from `sort/zsortfunc.go`: `1 << bits.Len(length)`. -/
def nextPowTwo (n : Nat) : Nat := 2 ^ bitsLen n

/-- `breakPatterns_func` (only swaps; never compares). -/
def breakPatterns {α : Type} (a : Array α)
    (lo hi : Nat) : Array α :=
  let length := hi - lo
  if length ≥ 8 then
    let modulus := nextPowTwo length
    let idx := lo + (length / 4) * 2 - 1
    let r0 := xorshiftNext length
    let r1 := xorshiftNext r0
    let r2 := xorshiftNext r1
    let step := fun (acc : Array α) (i : Nat) (r : Nat) =>
      let other := r &&& (modulus - 1)
      let other := if other ≥ length then other - length else other
      aswap acc (idx - 1 + i) (lo + other)
    step (step (step a 0 r0) 1 r1) 2 r2
  else a

inductive SortHint where
  | increasing
  | decreasing
  | unknown
deriving DecidableEq, Repr

/-- `order2_func`: order two indices by the pointed-to values, counting swaps. -/
def order2 {α : Type} (less : α → α → Bool) (a : Array α)
    (i j swaps : Nat) : Nat × Nat × Nat :=
  if lessAt less a j i then (j, i, swaps + 1) else (i, j, swaps)

/-- `median_func`. -/
def median {α : Type} (less : α → α → Bool) (arr : Array α)
    (i j k swaps : Nat) : Nat × Nat :=
  match order2 less arr i j swaps with
  | (i1, j1, s1) =>
    match order2 less arr j1 k s1 with
    | (j2, _, s2) =>
      match order2 less arr i1 j2 s2 with
      | (_, j3, s3) => (j3, s3)

/-- `medianAdjacent_func`. -/
def medianAdjacent {α : Type} (less : α → α → Bool) (arr : Array α)
    (i swaps : Nat) : Nat × Nat :=
  median less arr (i - 1) i (i + 1) swaps

/-- `choosePivot_func` (`shortestNinther = 50`, `maxSwaps = 12`). -/
def choosePivot {α : Type} (less : α → α → Bool) (arr : Array α)
    (lo hi : Nat) : Nat × SortHint :=
  let length := hi - lo
  let i := lo + (length / 4) * 1
  let j := lo + (length / 4) * 2
  let k := lo + (length / 4) * 3
  if length ≥ 8 then
    let step1 :=
      if length ≥ 50 then
        match medianAdjacent less arr i 0 with
        | (i', s1) =>
          match medianAdjacent less arr j s1 with
          | (j', s2) =>
            match medianAdjacent less arr k s2 with
            | (k', s3) => (i', j', k', s3)
      else (i, j, k, 0)
    match step1 with
    | (i', j', k', s) =>
      match median less arr i' j' k' s with
      | (jm, s4) =>
        (jm, if s4 = 0 then SortHint.increasing
             else if s4 = 12 then SortHint.decreasing
             else SortHint.unknown)
  else (j, SortHint.increasing)

/-- `reverseRange_func` (fuel ≥ `hi` suffices). -/
def reverseRangeAux {α : Type} : Nat → Array α → Nat → Nat → Array α
  | 0, a, _, _ => a
  | f + 1, a, i, j => if i < j then reverseRangeAux f (aswap a i j) (i + 1) (j - 1) else a

def reverseRange {α : Type} (a : Array α) (lo hi : Nat) : Array α :=
  reverseRangeAux hi a lo (hi - 1)

/-- Advance `i` while `i < hi` and `a[i]` is not less than `a[i-1]`
(the sortedness scan of `partialInsertionSort_func`). -/
def scanSorted {α : Type} (less : α → α → Bool) :
    Nat → Array α → Nat → Nat → Nat
  | 0, _, i, _ => i
  | f + 1, a, i, hi =>
    if i < hi ∧ lessAt less a i (i - 1) = false then scanSorted less f a (i + 1) hi
    else i

/-- Left shift loop of `partialInsertionSort_func`. -/
def shiftLeftLoop {α : Type} (less : α → α → Bool) :
    Nat → Array α → Nat → Array α
  | 0, a, _ => a
  | f + 1, a, j =>
    if j ≥ 1 ∧ lessAt less a j (j - 1) then
      shiftLeftLoop less f (aswap a j (j - 1)) (j - 1)
    else a

/-- Right shift loop of `partialInsertionSort_func`. -/
def shiftRightLoop {α : Type} (less : α → α → Bool) (hi : Nat) :
    Nat → Array α → Nat → Array α
  | 0, a, _ => a
  | f + 1, a, j =>
    if j < hi ∧ lessAt less a j (j - 1) then
      shiftRightLoop less hi f (aswap a j (j - 1)) (j + 1)
    else a

/-- `partialInsertionSort_func` (`maxSteps = 5`, `shortestShifting = 50`):
returns the updated array and whether the range became sorted. -/
def pdqTrySmallSort {α : Type} (less : α → α → Bool) (lo hi : Nat) :
    Nat → Array α → Nat → Array α × Bool
  | 0, a, _ => (a, false)
  | s + 1, a, i =>
    let i := scanSorted less (hi + 1) a i hi
    if i = hi then (a, true)
    else if hi - lo < 50 then (a, false)
    else
      let a := aswap a i (i - 1)
      let a := if i - lo ≥ 2 then shiftLeftLoop less i a (i - 1) else a
      let a := if hi - i ≥ 2 then shiftRightLoop less hi hi a (i + 1) else a
      pdqTrySmallSort less lo hi s a i

/-- Scan of `partition_func`: advance `i` while `a[i] < a[lo]`. -/
def scanLess {α : Type} (less : α → α → Bool) :
    Nat → Array α → Nat → Nat → Nat → Nat
  | 0, _, i, _, _ => i
  | f + 1, arr, i, j, lo =>
    if i ≤ j ∧ lessAt less arr i lo then scanLess less f arr (i + 1) j lo else i

/-- Scan of `partition_func`: retreat `j` while `a[j] ≥ a[lo]`. -/
def scanGe {α : Type} (less : α → α → Bool) :
    Nat → Array α → Nat → Nat → Nat → Nat
  | 0, _, _, j, _ => j
  | f + 1, arr, i, j, lo =>
    if i ≤ j ∧ lessAt less arr j lo = false then scanGe less f arr i (j - 1) lo else j

/-- Main loop of `partition_func`; returns the final `j`. -/
def partitionLoop {α : Type} (less : α → α → Bool) (lo hi : Nat) :
    Nat → Array α → Nat → Nat → Array α × Nat
  | 0, a, _, j => (a, j)
  | f + 1, a, i, j =>
    let i := scanLess less (hi + 2) a i j lo
    let j := scanGe less (hi + 2) a i j lo
    if i > j then (a, j)
    else partitionLoop less lo hi f (aswap a i j) (i + 1) (j - 1)

/-- `partition_func(data, lo, hi, pivot)`: Hoare partition around the pivot
moved to `lo`; returns `(array, newpivot, alreadyPartitioned)`. -/
def goPartition {α : Type} (less : α → α → Bool) (a : Array α)
    (lo hi pivot : Nat) : Array α × Nat × Bool :=
  let a := aswap a lo pivot
  let i := lo + 1
  let j := hi - 1
  let i := scanLess less (hi + 2) a i j lo
  let j := scanGe less (hi + 2) a i j lo
  if i > j then (aswap a j lo, j, true)
  else
    let a := aswap a i j
    match partitionLoop less lo hi (hi + 2) a (i + 1) (j - 1) with
    | (a, j') => (aswap a j' lo, j', false)

/-- Scan of `partitionEqual_func`: advance `i` while `a[lo]` is not less
than `a[i]`. -/
def scanEqAdv {α : Type} (less : α → α → Bool) :
    Nat → Array α → Nat → Nat → Nat → Nat
  | 0, _, i, _, _ => i
  | f + 1, arr, i, j, lo =>
    if i ≤ j ∧ lessAt less arr lo i = false then scanEqAdv less f arr (i + 1) j lo else i

/-- Scan of `partitionEqual_func`: retreat `j` while `a[lo] < a[j]`. -/
def scanEqRet {α : Type} (less : α → α → Bool) :
    Nat → Array α → Nat → Nat → Nat → Nat
  | 0, _, _, j, _ => j
  | f + 1, arr, i, j, lo =>
    if i ≤ j ∧ lessAt less arr lo j then scanEqRet less f arr i (j - 1) lo else j

def partitionEqualLoop {α : Type} (less : α → α → Bool) (lo hi : Nat) :
    Nat → Array α → Nat → Nat → Array α × Nat
  | 0, a, i, _ => (a, i)
  | f + 1, a, i, j =>
    let i := scanEqAdv less (hi + 2) a i j lo
    let j := scanEqRet less (hi + 2) a i j lo
    if i > j then (a, i)
    else partitionEqualLoop less lo hi f (aswap a i j) (i + 1) (j - 1)

/-- `partitionEqual_func`. -/
def goPartitionEqual {α : Type} (less : α → α → Bool) (a : Array α)
    (lo hi pivot : Nat) : Array α × Nat :=
  let a := aswap a lo pivot
  partitionEqualLoop less lo hi (hi + 2) a (lo + 1) (hi - 1)

/-- `pdqsort_func`.  The outer `for` loop and the recursive calls both step
through the fuel; the range shrinks strictly at every iteration, so
`2·size + 64` fuel is ample for every run modelled here. -/
def pdqsortAux {α : Type} (less : α → α → Bool) :
    Nat → Array α → Nat → Nat → Nat → Bool → Bool → Array α
  | 0, a, _, _, _, _, _ => a
  | fuel + 1, a, lo, hi, limit, wasBalanced, wasPartitioned =>
    let length := hi - lo
    if length ≤ 12 then insertionSortRange less lo hi a
    else if limit = 0 then heapSortRange less lo hi a
    else
      let step :=
        if wasBalanced = false then (breakPatterns a lo hi, limit - 1)
        else (a, limit)
      let a := step.1
      let limit := step.2
      let pv := choosePivot less a lo hi
      let rev :=
        if pv.2 = SortHint.decreasing then
          (reverseRange a lo hi, (hi - 1) - (pv.1 - lo), SortHint.increasing)
        else (a, pv.1, pv.2)
      let a := rev.1
      let pivot := rev.2.1
      let hint := rev.2.2
      let tried :=
        if wasBalanced ∧ wasPartitioned ∧ hint = SortHint.increasing then
          pdqTrySmallSort less lo hi 5 a (lo + 1)
        else (a, false)
      let a := tried.1
      if tried.2 then a
      else if lo > 0 ∧ lessAt less a (lo - 1) pivot = false then
        match goPartitionEqual less a lo hi pivot with
        | (a, mid) => pdqsortAux less fuel a mid hi limit wasBalanced wasPartitioned
      else
        match goPartition less a lo hi pivot with
        | (a, mid, alreadyPartitioned) =>
          let leftLen := mid - lo
          let rightLen := hi - mid
          let balanceThreshold := length / 8
          let wasBalanced2 := decide (min leftLen rightLen ≥ balanceThreshold)
          if leftLen < rightLen then
            let a := pdqsortAux less fuel a lo mid limit true true
            pdqsortAux less fuel a (mid + 1) hi limit wasBalanced2 alreadyPartitioned
          else
            let a := pdqsortAux less fuel a (mid + 1) hi limit true true
            pdqsortAux less fuel a lo mid limit wasBalanced2 alreadyPartitioned

/-- `sort.Slice(x, less)`: pdqsort over the whole array with
`limit = bits.Len(length)`. -/
def goSortSlice {α : Type} (less : α → α → Bool) (a : Array α) : Array α :=
  pdqsortAux less (2 * a.size + 64) a 0 a.size (bitsLen a.size) true true

def goSortSliceList {α : Type} (less : α → α → Bool) (l : List α) : List α :=
  (goSortSlice less l.toArray).toList

/-- The in-place sort `Generate` performs on the root layer slice:
`sort.Slice(layers, func(i, j) { return layers[i].ZIndex < layers[j].ZIndex })`. -/
def sortLayersByZ (layers : List Layer) : List Layer :=
  goSortSliceList (fun x y => x.zIndex < y.zIndex) layers

/-! ## The PDF generator (`generator` package inside cache.go)

gofpdf, the qr library and the network are external; the embedding records the
drawing calls as an abstract trace (`PdfState`) and takes their outcomes from
an `Env` of oracles.  Image registration names derived from md5 hashes are
modelled without the opaque hash suffix (no claim observes the names). -/

/-- Abstract trace of gofpdf calls. -/
inductive PdfOp where
  | newCustom (w h : Q)
  | setMargins (l t r : Q)
  | setAutoPageBreak (auto : Bool) (margin : Q)
  | addPage
  | addFont (family style file : String)
  | setFont (family style : String) (size : Q)
  | setTextColor (r g b : Int)
  | setXY (x y : Q)
  | cellFormat (w h : Q) (txt align : String)
  | multiCell (w h : Q) (txt align : String)
  | setFillColor (r g b : Int)
  | rect (x y w h : Q) (style : String)
  | registerImage (name : String)
  | drawImage (name : String) (x y w h : Q)
deriving DecidableEq, Repr

abbrev PdfState := List PdfOp

/-- Per-layer failures of the renderer. -/
inductive RenderErr where
  | qrEncodeFailed (msg : String)
  | qrEmptyContent
  | qrRegisterFailed (layerId content : String)
  | imageRegisterFailed (layerId : String)
  | imageOnDemandFailed (layerId msg : String)
  | imageRegisterOnDemandFailed (layerId : String)
deriving DecidableEq, Repr

/-- External behaviour the generator depends on. -/
structure Env where
  /-- `os.Getenv("FONT_SIZE_UNIT")`. -/
  fontSizeUnitEnv : String
  /-- `os.Stat` on the two font files. -/
  fontFileExists : String → Bool
  /-- `pdf.GetStringWidth` under font (family, style, size). -/
  stringWidth : String → String → Q → String → Q
  /-- `qrcode.Encode(content, Medium, size)`: PNG bytes or an error. -/
  qrEncode : String → Int → Except String (List Nat)
  /-- `RegisterImageOptionsReader` succeeds on these bytes (`info != nil`). -/
  registerOk : List Nat → Bool
  /-- `cache.GetImageDataDirect(url, wMM, hMM, dpi)`: the on-demand
  fetch+process path (its body lives in the part of `internal/cache` not
  present in the source tree; success and bytes are an oracle). -/
  getImageDataDirect : String → Q → Q → Int → Except String (List Nat)
  /-- `pdf.Output`: final byte emission. -/
  output : PdfState → Except String (List Nat)

/-- The `PDFGenerator` struct (minus the `*gofpdf.Fpdf`, carried as the
explicit `PdfState` trace). -/
structure PDFGenerator where
  template : Template
  user : User
  imageDataCache : List (String × List Nat)
  dpi : Int

/-- `strings.HasPrefix`. -/
def startsWithStr (s pfx : String) : Bool := pfx.toList.isPrefixOf s.toList

/-- `strings.TrimPrefix`. -/
def trimPfxStr (s pfx : String) : String :=
  if startsWithStr s pfx then String.mk (s.toList.drop pfx.toList.length) else s

/-- `strings.Contains`. -/
def containsSubstr (s pat : String) : Bool :=
  s.toList.tails.any (fun t => pat.toList.isPrefixOf t)

/-- Association-list lookup standing in for a Go map read `m[k]`. -/
def lookupAssoc {β : Type} (l : List (String × β)) (k : String) : Option β :=
  (l.find? (fun kv => kv.1 = k)).map (fun kv => kv.2)

/-- The `strings.ReplaceAll` chain naming registered images
(`img_` + URL with `/`, `:`, `.` replaced by `_`; md5 suffix omitted). -/
def imageNameOf (url : String) : String :=
  "img_" ++ String.mk (url.toList.map
    (fun c => if c = '/' ∨ c = ':' ∨ c = '.' then '_' else c))

/-- `NewPDFGenerator`: paper size fallbacks, page setup, conditional font
registration, DPI defaulting. -/
def newPDFGenerator (env : Env) (t : Template) (u : User) :
    PDFGenerator × PdfState :=
  let settings := t.design.settings
  let width := if settings.paperWidth = 0 then t.width else settings.paperWidth
  let height := if settings.paperHeight = 0 then t.height else settings.paperHeight
  let width := if width = 0 then 210 else width
  let height := if height = 0 then 297 else height
  let st : PdfState :=
    [PdfOp.newCustom width height, PdfOp.setMargins 0 0 0,
     PdfOp.setAutoPageBreak false 0, PdfOp.addPage]
  let st := st ++ (if env.fontFileExists "fonts/arial.ttf" then
    [PdfOp.addFont "Arial" "" "fonts/arial.ttf"] else [])
  let st := st ++ (if env.fontFileExists "fonts/arialbd.ttf" then
    [PdfOp.addFont "Arial" "B" "fonts/arialbd.ttf"] else [])
  let dpi := if settings.dpi = 0 then 300 else settings.dpi
  (⟨t, u, [], dpi⟩, st)

def hexDigit (c : Char) : Option Nat :=
  if '0' ≤ c ∧ c ≤ '9' then some (c.toNat - 48)
  else if 'a' ≤ c ∧ c ≤ 'f' then some (c.toNat - 87)
  else if 'A' ≤ c ∧ c ≤ 'F' then some (c.toNat - 55)
  else none

/-- `strconv.ParseInt(s, 16, 64)` on a two-character chunk, with the source's
ignored-error convention (invalid digits yield 0). -/
def hexPair (a b : Char) : Int :=
  match hexDigit a, hexDigit b with
  | some x, some y => ((16 * x + y : Nat) : Int)
  | _, _ => 0

/-- `hexToRGB`: strip `#`, require six characters, parse pairs (0 on parse
failure, black on wrong length). -/
def hexToRGB (hex : String) : Int × Int × Int :=
  let l := match hex.toList with
    | '#' :: rest => rest
    | other => other
  match l with
  | [a, b, c, d, e, f] => (hexPair a b, hexPair c d, hexPair e f)
  | _ => (0, 0, 0)

/-- `strings.Split(s, "\n")`. -/
def splitNl : List Char → List (List Char)
  | [] => [[]]
  | c :: rest =>
    if c = '\n' then [] :: splitNl rest
    else
      match splitNl rest with
      | [] => [[c]]
      | h :: t => (c :: h) :: t

def splitLines (s : String) : List String := (splitNl s.toList).map String.mk

/-- Binary search loop of `calculateAutoFontSize` (`for maxSize-minSize > 0.1`).
Fuel 64 covers every bracket the clamps allow; the intermediate `SetFont`
probes (immediately overwritten by the final `SetFont`) are not recorded in
the trace. -/
def autoFontLoop (env : Env) (text fontFamily fontStyle : String) (width : Q) :
    Nat → Q → Q → Q
  | 0, minSize, _ => minSize
  | f + 1, minSize, maxSize =>
    if Q.blt ((1 : Q) / 10) (maxSize - minSize) then
      let testSize := (minSize + maxSize) / 2
      let textWidth := env.stringWidth fontFamily fontStyle testSize text
      if Q.ble textWidth (width * ((95 : Q) / 100)) then
        autoFontLoop env text fontFamily fontStyle width f testSize maxSize
      else
        autoFontLoop env text fontFamily fontStyle width f minSize testSize
    else minSize

/-- `calculateAutoFontSize`. -/
def calculateAutoFontSize (env : Env) (text : String) (width height : Q)
    (fontFamily fontStyle : String) (maxFontSize : Q) : Q :=
  let maxFontSize := if Q.ble maxFontSize 0 then 72 else maxFontSize
  let fontSizeFromHeight := height * ((283 : Q) / 100)
  let maxSize := fontSizeFromHeight
  let maxSize :=
    if Q.blt 0 maxFontSize ∧ Q.blt maxFontSize maxSize then maxFontSize else maxSize
  let maxSize := if Q.blt 72 maxSize then 72 else maxSize
  autoFontLoop env text fontFamily fontStyle width 64 4 maxSize

/-- `renderText` (always returns nil in the source; emits drawing ops). -/
def renderText (env : Env) (g : PDFGenerator) (layer : Layer) (x y : Q)
    (st : PdfState) : PdfState × Option RenderErr :=
  let text := resolvePlaceholders g.user layer.content
  if goTrimSpace text = "" then (st, none)
  else
    let fontStyle :=
      if layer.style.fontWeight = "bold" ∨ layer.style.fontWeight = "700" then "B"
      else ""
    let fontSizeAsPx := layer.style.fontSize * ((72 : Q) / Q.ofInt g.dpi)
    let fontSizeUnit := if env.fontSizeUnitEnv = "" then "px" else env.fontSizeUnitEnv
    let fontSize :=
      if fontSizeUnit = "pt" then layer.style.fontSize
      else if fontSizeUnit = "auto" then fontSizeAsPx
      else fontSizeAsPx
    let fontSize := if Q.blt fontSize 4 then 4 else fontSize
    let fontSize := if Q.blt 72 fontSize then 72 else fontSize
    let fontFamily := if layer.style.fontFamily = "" then "Arial" else layer.style.fontFamily
    let fontSize :=
      if layer.autoFontSize then
        calculateAutoFontSize env text layer.size.width layer.size.height
          fontFamily fontStyle fontSize
      else fontSize
    let st := st ++ [PdfOp.setFont fontFamily fontStyle fontSize]
    let rgb := hexToRGB layer.style.color
    let st := st ++ [PdfOp.setTextColor rgb.1 rgb.2.1 rgb.2.2]
    let alignStr :=
      if layer.style.textAlign = "center" then "CM"
      else if layer.style.textAlign = "right" then "RM"
      else "LM"
    let st := st ++ [PdfOp.setXY x y]
    let textWidth := env.stringWidth fontFamily fontStyle fontSize text
    let needsWrapping := Q.blt (layer.size.width * ((95 : Q) / 100)) textWidth
    if text.toList.contains '\n' then
      let lines := splitLines text
      let lineHeight := fontSize * ((12 : Q) / 10)
      let lineHeight :=
        if Q.blt (layer.size.height / Q.ofN lines.length) lineHeight then
          layer.size.height / Q.ofN lines.length
        else lineHeight
      let st := (lines.enum.foldl (fun acc p =>
        let i := p.1
        let line := p.2
        if goTrimSpace line = "" then acc
        else
          let currentY := y + Q.ofN i * lineHeight
          let acc := acc ++ [PdfOp.setXY x currentY]
          let lineWidth := env.stringWidth fontFamily fontStyle fontSize line
          if Q.blt (layer.size.width * ((95 : Q) / 100)) lineWidth then
            acc ++ [PdfOp.multiCell layer.size.width lineHeight line alignStr]
          else
            acc ++ [PdfOp.cellFormat layer.size.width lineHeight line alignStr]) st)
      (st, none)
    else if needsWrapping then
      let lineHeight := fontSize * ((12 : Q) / 10)
      let lineHeight := if Q.blt layer.size.height lineHeight then layer.size.height else lineHeight
      (st ++ [PdfOp.multiCell layer.size.width lineHeight text alignStr], none)
    else
      (st ++ [PdfOp.cellFormat layer.size.width layer.size.height text alignStr], none)

/-- `renderQRCode`: opacity-0 skip, placeholder resolution, identifier/id
fallback chain, empty-content error, size derivation with [100, 1024] clamp,
encode, register, draw. -/
def renderQRCode (env : Env) (g : PDFGenerator) (layer : Layer) (x y : Q)
    (st : PdfState) : PdfState × Option RenderErr :=
  if layer.style.opacity = 0 then (st, none)
  else
    let qrContent := resolvePlaceholders g.user layer.content
    let qrContent :=
      if qrContent = "" ∨ containsSubstr qrContent "\x7b\x7b" then g.user.identifier
      else qrContent
    let qrContent := if qrContent = "" then g.user.id else qrContent
    if qrContent = "" then (st, some RenderErr.qrEmptyContent)
    else
      let widthMM := layer.size.width
      let widthMM := if Q.blt widthMM layer.size.height then layer.size.height else widthMM
      let qrSize := Q.toGoInt ((widthMM * Q.ofInt g.dpi) / ((254 : Q) / 10))
      let qrSize := if qrSize < 100 then 100 else qrSize
      let qrSize := if qrSize > 1024 then 1024 else qrSize
      match env.qrEncode qrContent qrSize with
      | Except.error e => (st, some (RenderErr.qrEncodeFailed e))
      | Except.ok bytes =>
        let imageName := "qr_" ++ layer.id
        if env.registerOk bytes = false then
          (st, some (RenderErr.qrRegisterFailed layer.id qrContent))
        else
          (st ++ [PdfOp.registerImage imageName,
                  PdfOp.drawImage imageName x y layer.size.width layer.size.height],
           none)

/-- `renderImage`: URL resolution (asset exact / substring, data binding,
direct http(s)), silent skip on empty URL, opacity-0 skip, preloaded-cache
path, on-demand fallback through `GetImageDataDirect`. -/
def renderImage (env : Env) (g : PDFGenerator) (layer : Layer) (x y : Q)
    (st : PdfState) : PdfState × Option RenderErr :=
  let imageURL :=
    if startsWithStr layer.content "asset_" then
      match lookupAssoc g.template.assets layer.content with
      | some url => url
      | none =>
        match g.template.assets.find? (fun kv => containsSubstr kv.1 layer.content) with
        | some kv => kv.2
        | none => ""
    else if layer.dataBinding ≠ "" then
      g.user.GetFieldValue (trimPfxStr layer.dataBinding "customFields.")
    else if layer.content ≠ "" ∧
        (startsWithStr layer.content "http://" ∨ startsWithStr layer.content "https://") then
      layer.content
    else ""
  if imageURL = "" then (st, none)
  else if layer.style.opacity = 0 then (st, none)
  else
    match lookupAssoc g.imageDataCache imageURL with
    | some bytes =>
      let imageName := imageNameOf imageURL
      if env.registerOk bytes = false then
        (st, some (RenderErr.imageRegisterFailed layer.id))
      else
        (st ++ [PdfOp.registerImage imageName,
                PdfOp.drawImage imageName x y layer.size.width layer.size.height],
         none)
    | none =>
      match env.getImageDataDirect imageURL layer.size.width layer.size.height g.dpi with
      | Except.error e => (st, some (RenderErr.imageOnDemandFailed layer.id e))
      | Except.ok bytes =>
        let imageName := imageNameOf imageURL
        if env.registerOk bytes = false then
          (st, some (RenderErr.imageRegisterOnDemandFailed layer.id))
        else
          (st ++ [PdfOp.registerImage imageName,
                  PdfOp.drawImage imageName x y layer.size.width layer.size.height],
           none)

/-- `renderShape`: skip on empty/transparent background, else fill a rect
(the generator state itself is unused). -/
def renderShape (_g : PDFGenerator) (layer : Layer) (x y : Q)
    (st : PdfState) : PdfState × Option RenderErr :=
  if layer.style.backgroundColor = "" ∨ layer.style.backgroundColor = "transparent" then
    (st, none)
  else
    let rgb := hexToRGB layer.style.backgroundColor
    (st ++ [PdfOp.setFillColor rgb.1 rgb.2.1 rgb.2.2,
            PdfOp.rect x y layer.size.width layer.size.height "F"], none)

mutual
/-- `renderLayer`: absolute position from the parent, then dispatch on the
layer type (unknown types are skipped).  `renderContainer` is inlined in the
container branch so that the recursion over the tree stays structural. -/
def renderLayer (env : Env) (g : PDFGenerator) :
    Layer → Q → Q → PdfState → PdfState × Option RenderErr
  | Layer.mk lid lty lcontent lbind lpos lsize lstyle lchildren lz lvis lclo lauto,
    parentX, parentY, st =>
    let layer := Layer.mk lid lty lcontent lbind lpos lsize lstyle lchildren lz lvis lclo lauto
    let absX := parentX + lpos.x
    let absY := parentY + lpos.y
    if lty = "text" then renderText env g layer absX absY st
    else if lty = "qrcode" then renderQRCode env g layer absX absY st
    else if lty = "image" then renderImage env g layer absX absY st
    else if lty = "container" then
      if lchildren.toList.length = 0 then (st, none)
      else
        let layout :=
          match lclo with
          | some lo => lo
          | none => ⟨"flex", "column", "", "", 0, ""⟩
        let childPositions := calculateFlexPositions layer layout
        (renderChildren env g lchildren childPositions 0 absX absY st, none)
    else if lty = "shape" then renderShape g layer absX absY st
    else (st, none)

/-- The child loop of `renderContainer`: skip invisible children, offset by
the flex position when available, swallow per-child errors. -/
def renderChildren (env : Env) (g : PDFGenerator) :
    LayerList → List Position → Nat → Q → Q → PdfState → PdfState
  | .nil, _, _, _, _, st => st
  | .cons child rest, ps, i, x, y, st =>
    let st1 :=
      if child.visible = false then st
      else
        let cxy :=
          if i < ps.length then
            match ps[i]? with
            | some p => (x + p.x, y + p.y)
            | none => (x, y)
          else (x, y)
        (renderLayer env g child cxy.1 cxy.2 st).1
    renderChildren env g rest ps (i + 1) x y st1
end

/-- The layer loop of `Generate`: sorted root layers in order, invisible ones
skipped, per-layer errors collected but not propagated (the source logs QR
failures and continues). -/
def runLayers (env : Env) (g : PDFGenerator) :
    List Layer → PdfState → PdfState × List RenderErr
  | [], st => (st, [])
  | layer :: rest, st =>
    if layer.visible = false then runLayers env g rest st
    else
      match renderLayer env g layer 0 0 st with
      | (st1, err) =>
        match runLayers env g rest st1 with
        | (st2, errs) => (st2, err.toList ++ errs)

/-- Everything `Generate` computes before emission: the final trace and the
swallowed per-layer errors, for the template/user/preloaded-cache at hand. -/
def generateRun (env : Env) (t : Template) (u : User)
    (dataCache : List (String × List Nat)) : PdfState × List RenderErr :=
  let sorted := sortLayersByZ t.design.layers
  let gp := newPDFGenerator env t u
  let g := { gp.1 with imageDataCache := dataCache }
  runLayers env g sorted gp.2

/-- The error wrapping at the end of `Generate`:
`fmt.Errorf("failed to output PDF: %w", err)` on emission failure. -/
def outputWrap (r : Except String (List Nat)) : Except String (List Nat) :=
  match r with
  | Except.ok bytes => Except.ok bytes
  | Except.error e => Except.error ("failed to output PDF: " ++ e)

/-- `Generate`: sort (in place — the returned template reflects the mutated
layer slice), render, emit.  Result: the `([]byte, error)` pair and the
template value after the call. -/
def generate (env : Env) (t : Template) (u : User)
    (dataCache : List (String × List Nat)) :
    Except String (List Nat) × Template :=
  let sorted := sortLayersByZ t.design.layers
  let t2 := { t with design := { t.design with layers := sorted } }
  (outputWrap (env.output (generateRun env t u dataCache).1), t2)

/-- Render order of `Generate`: the sorted root layers, invisible skipped. -/
def renderOrder (t : Template) : List String :=
  ((sortLayersByZ t.design.layers).filter (fun l => l.visible)).map Layer.id

/-! ## HTTP fetcher configuration (`cache.Init`, `cache.downloadFile`) -/

/-- `http.Client{ Timeout: 10 * time.Second }` in `cache.Init`. -/
def httpClientTimeoutSeconds : Nat := 10

/-- `http.Transport.MaxIdleConns` in `cache.Init`. -/
def transportMaxIdleConns : Nat := 100

/-- `http.Transport.MaxIdleConnsPerHost` in `cache.Init`. -/
def transportMaxIdleConnsPerHost : Nat := 20

/-- `http.Transport.IdleConnTimeout` in `cache.Init`, in seconds. -/
def transportIdleConnTimeoutSeconds : Nat := 90

inductive FetchErr where
  | transport (msg : String)
  | badStatus (status : Nat)
deriving DecidableEq, Repr

/-- `cache.downloadFile`'s response handling: transport errors propagate; any
status other than `http.StatusOK` (200) fails with the bad-status error;
otherwise the body is stored.  The response is abstracted as
`(statusCode, body)` or a transport error. -/
def downloadFile (resp : Except String (Nat × List Nat)) :
    Except FetchErr (List Nat) :=
  match resp with
  | Except.error e => Except.error (FetchErr.transport e)
  | Except.ok sb =>
    if sb.1 ≠ 200 then Except.error (FetchErr.badStatus sb.1)
    else Except.ok sb.2

/-! ## Batch handler (`handlers.GenerateBadgeBatch`) -/

/-- `models.UserData` (the `{user: {...}}` wrapper). -/
structure UserData where
  user : User
deriving DecidableEq, Repr

structure BatchRequest where
  template : Template
  users : List UserData

/-- `models.BadgeResult`.  The base64 encoding is opaque; the field carries
the PDF bytes that would be encoded. -/
structure BadgeResult where
  userId : String
  identifier : String
  success : Bool
  error : String
  pdfBase64 : Option (List Nat)
deriving DecidableEq, Repr

/-- The handler's observable outcome: a 400 rejection or the JSON
`BatchGenerateResponse`. -/
inductive BatchHttpResponse where
  | badRequest (msg : String)
  | ok (success : Bool) (total : Nat) (results : List BadgeResult)
deriving DecidableEq, Repr

/-- One worker body of the batch loop: build the result slot for one user. -/
def batchWorker (env : Env) (t : Template) (dataCache : List (String × List Nat))
    (ud : UserData) : BadgeResult × Template :=
  match generate env t ud.user dataCache with
  | (Except.ok bytes, t2) =>
    (⟨ud.user.id, ud.user.identifier, true, "", some bytes⟩, t2)
  | (Except.error e, t2) =>
    (⟨ud.user.id, ud.user.identifier, false, e, none⟩, t2)

/-- The worker pool, sequentialized: slot `i` of the result slice is written
by the worker for user `i`; the template value (which `Generate` sorts in
place — in the real service all workers share it concurrently) is threaded
through one interleaving. -/
def batchLoop (env : Env) (dataCache : List (String × List Nat)) :
    Template → List UserData → List BadgeResult
  | _, [] => []
  | t, ud :: rest =>
    match batchWorker env t dataCache ud with
    | (r, t2) => r :: batchLoop env dataCache t2 rest

/-- `GenerateBadgeBatch` on an already-parsed request.  `dataCache` stands for
the map `cache.PreloadImagesDirect` returns (that function's body is part of
`internal/cache` not present in the source tree; per the spec it yields a
URL-to-bytes map and individual failures simply leave URLs out). -/
def generateBadgeBatch (env : Env) (req : BatchRequest)
    (dataCache : List (String × List Nat)) : BatchHttpResponse :=
  if req.users.length = 0 then BatchHttpResponse.badRequest "No users provided"
  else if req.users.length > 500 then
    BatchHttpResponse.badRequest "Maximum 500 users per batch"
  else
    let results := batchLoop env dataCache req.template req.users
    let successCount := (results.filter (fun r => r.success)).length
    BatchHttpResponse.ok (successCount = results.length) results.length results

/-! ## JSON decoding of the style block (`encoding/json` zero values)

`Style` has no custom unmarshaller; with Go's `encoding/json`, an absent
`style` object or an absent `opacity` field leaves the struct field at its
zero value `0`. -/

structure StyleJson where
  fontSize : Option Q
  fontFamily : Option String
  fontWeight : Option String
  color : Option String
  textAlign : Option String
  opacity : Option Q
  backgroundColor : Option String
  rotation : Option Q
deriving DecidableEq, Repr

/-- Modelled from Go `encoding/json` semantics: decode a possibly-absent
style object, defaulting every absent field to the zero value. -/
def decodeStyle (j : Option StyleJson) : Style :=
  match j with
  | none => ⟨0, "", "", "", "", 0, "", 0⟩
  | some s =>
    ⟨s.fontSize.getD 0, s.fontFamily.getD "", s.fontWeight.getD "",
     s.color.getD "", s.textAlign.getD "", s.opacity.getD 0,
     s.backgroundColor.getD "", s.rotation.getD 0⟩

/-! ## Spec-side descriptions of the QR content chain (claim C7) -/

/-- The content resolution chain as the specification words it: resolved
content; if empty or still containing `{{`, the user's identifier; if still
empty, the user's id. -/
def qrChain (u : User) (content : String) : String :=
  let r := resolvePlaceholders u content
  let r := if r = "" ∨ containsSubstr r "\x7b\x7b" then u.identifier else r
  if r = "" then u.id else r

/-- The pixel size the QR generator is asked for:
`int(max(w,h)·dpi/25.4)` clamped to `[100, 1024]`. -/
def qrSizePx (layer : Layer) (dpi : Int) : Int :=
  let widthMM :=
    if Q.blt layer.size.width layer.size.height then layer.size.height
    else layer.size.width
  let s := Q.toGoInt ((widthMM * Q.ofInt dpi) / ((254 : Q) / 10))
  let s := if s < 100 then 100 else s
  if s > 1024 then 1024 else s

/-- The encode/register/draw tail of `renderQRCode` for a given content. -/
def qrContinue (env : Env) (g : PDFGenerator) (layer : Layer) (x y : Q)
    (st : PdfState) (content : String) : PdfState × Option RenderErr :=
  match env.qrEncode content (qrSizePx layer g.dpi) with
  | Except.error e => (st, some (RenderErr.qrEncodeFailed e))
  | Except.ok bytes =>
    if env.registerOk bytes = false then
      (st, some (RenderErr.qrRegisterFailed layer.id content))
    else
      (st ++ [PdfOp.registerImage ("qr_" ++ layer.id),
              PdfOp.drawImage ("qr_" ++ layer.id) x y layer.size.width layer.size.height],
       none)

/-! ## Concrete fixtures used by the counterexamples and witnesses -/

/-- A neutral oracle environment for evaluations that do not depend on the
oracles' answers. -/
def probeEnv : Env where
  fontSizeUnitEnv := ""
  fontFileExists := fun _ => false
  stringWidth := fun _ _ _ _ => 0
  qrEncode := fun _ _ => Except.ok [0]
  registerOk := fun _ => true
  getImageDataDirect := fun _ _ _ _ => Except.error "not fetched"
  output := fun _ => Except.ok [0]

/-- Style with opacity 1 (visible). -/
def solidStyle : Style := ⟨0, "", "", "", "", 1, "", 0⟩

/-- An invisible-by-opacity style. -/
def clearStyle : Style := ⟨0, "", "", "", "", 0, "", 0⟩

def mkShape (lid : String) (z : Int) : Layer :=
  Layer.mk lid "shape" "" "" ⟨0, 0⟩ ⟨10, 10⟩ solidStyle .nil z true none false

/-- C3 failing input: 13 visible root shapes whose z-indices make Go's
pdqsort swap the two layers with equal z-index 2 (`L2` before `L12` on
input). -/
def c3Template : Template :=
  ⟨1, "", 0, "c3", ⟨[mkShape "L0" 5, mkShape "L1" 11, mkShape "L2" 2,
      mkShape "L3" 1, mkShape "L4" 3, mkShape "L5" 4, mkShape "L6" 10,
      mkShape "L7" 6, mkShape "L8" 7, mkShape "L9" 20, mkShape "L10" 8,
      mkShape "L11" 12, mkShape "L12" 2],
    ⟨100, 100, 300, "", "", false⟩⟩, [], 0, 0⟩

/-- C4 failing input: two root layers with z-indices `[2, 1]`. -/
def c4Template : Template :=
  ⟨2, "", 0, "c4", ⟨[mkShape "A" 2, mkShape "B" 1],
    ⟨100, 100, 300, "", "", false⟩⟩, [], 0, 0⟩

def emptyUser : User := ⟨"", "", "", "", "", []⟩

/-- C6 users: the claim's uppercase field id, and its lowercase variant. -/
def c6UserUpper : User := ⟨"", "", "", "", "", [⟨"ABC", "", "", "world ", ""⟩]⟩

def c6UserLower : User := ⟨"", "", "", "", "", [⟨"abc", "", "", "world ", ""⟩]⟩

/-- C7 counterexample fixture: a visible qrcode layer whose content resolves
to a non-empty string still containing `{{`, for a user with empty
identifier and id. -/
def c7Layer : Layer :=
  Layer.mk "qr1" "qrcode" "\x7b\x7bx" "" ⟨0, 0⟩ ⟨50, 50⟩ solidStyle .nil 0 true none false

def c7Gen : PDFGenerator := ⟨c4Template, emptyUser, [], 300⟩

/-- C7/C10 witness fixture: a visible qrcode layer with empty content for a
user with a non-empty identifier. -/
def c7Layer2 : Layer :=
  Layer.mk "qr2" "qrcode" "" "" ⟨0, 0⟩ ⟨50, 50⟩ solidStyle .nil 0 true none false

def identUser : User := ⟨"uid9", "", "", "", "7882919302", []⟩

def c7Gen2 : PDFGenerator := ⟨c4Template, identUser, [], 300⟩

/-- C8 witness environment: the on-demand image fetch fails (so the broken
image layer's render errors) while emission succeeds. -/
def c8Env : Env where
  fontSizeUnitEnv := ""
  fontFileExists := fun _ => false
  stringWidth := fun _ _ _ _ => 0
  qrEncode := fun _ _ => Except.ok [0]
  registerOk := fun _ => true
  getImageDataDirect := fun _ _ _ _ => Except.error "404 not found"
  output := fun _ => Except.ok [7]

/-- C8 witness template: one visible image layer whose URL misses the
preloaded cache and whose on-demand fetch fails. -/
def c8Template : Template :=
  ⟨3, "", 0, "c8", ⟨[Layer.mk "img" "image" "https://host/broken.png" ""
      ⟨0, 0⟩ ⟨10, 10⟩ solidStyle .nil 0 true none false],
    ⟨100, 100, 300, "", "", false⟩⟩, [], 0, 0⟩

/-- C9 witness environment: QR encoding fails for user `u1`'s identifier;
emission fails exactly when the page has no drawn image. -/
def c9Env : Env where
  fontSizeUnitEnv := ""
  fontFileExists := fun _ => false
  stringWidth := fun _ _ _ _ => 0
  qrEncode := fun content _ => if content = "u1" then Except.error "boom" else Except.ok [1]
  registerOk := fun _ => true
  getImageDataDirect := fun _ _ _ _ => Except.error "miss"
  output := fun st =>
    if (st.filter (fun op =>
        match op with
        | PdfOp.drawImage _ _ _ _ _ => true
        | _ => false)).length = 0
    then Except.error "no content" else Except.ok [3]

/-- C9 witness request: one qrcode layer encoding the user identifier; two
users, the first of which fails. -/
def c9Template : Template :=
  ⟨4, "", 0, "c9", ⟨[Layer.mk "q" "qrcode" "" "" ⟨0, 0⟩ ⟨50, 50⟩ solidStyle
      .nil 0 true none false],
    ⟨100, 100, 300, "", "", false⟩⟩, [], 0, 0⟩

def c9Req : BatchRequest :=
  ⟨c9Template, [⟨⟨"id1", "", "", "", "u1", []⟩⟩, ⟨⟨"id2", "", "", "", "u2", []⟩⟩]⟩

/-- Zero-user and 501-user requests for the rejection branches. -/
def c9ReqEmpty : BatchRequest := ⟨c9Template, []⟩

def c9ReqBig : BatchRequest :=
  ⟨c9Template, List.replicate 501 ⟨⟨"id", "", "", "", "u", []⟩⟩⟩

/-- C10 witness: an image layer with opacity 0 referencing a real URL. -/
def c10Layer : Layer :=
  Layer.mk "dim" "image" "https://host/a.png" "" ⟨0, 0⟩ ⟨10, 10⟩ clearStyle
    .nil 0 true none false

/-! ## Theorems

Helper lemmas first, then the claim theorems, their counterexamples and
witnesses. -/

theorem matchPh_length {l after : List Char} {cap : String}
    (h : matchPh l = some (cap, after)) : after.length < l.length := by
  simp only [matchPh] at h
  split at h
  · rename_i hpfx
    split at h
    · simp only [Option.some.injEq, Prod.mk.injEq] at h
      obtain ⟨-, h2⟩ := h
      subst h2
      have h15 : phPfx.length ≤ l.length :=
        (List.isPrefixOf_iff_prefix.mp hpfx).length_le
      have hp : phPfx.length = 15 := by decide
      simp only [List.length_drop]
      omega
    · exact absurd h (by simp)
  · exact absurd h (by simp)

theorem findPh_length {l pre after : List Char} {cap : String}
    (h : findPh l = some (pre, cap, after)) : after.length < l.length := by
  induction l generalizing pre cap after with
  | nil => simp [findPh] at h
  | cons c rest ih =>
    rw [findPh] at h
    cases hm : matchPh (c :: rest) with
    | some x =>
      obtain ⟨cap1, after1⟩ := x
      rw [hm] at h
      simp only [Option.some.injEq, Prod.mk.injEq] at h
      obtain ⟨-, -, h3⟩ := h
      subst h3
      exact matchPh_length hm
    | none =>
      rw [hm] at h
      simp only [Option.map_eq_some'] at h
      obtain ⟨⟨p1, c1, a1⟩, hx, heq⟩ := h
      simp only [Prod.mk.injEq] at heq
      obtain ⟨-, -, h3⟩ := heq
      subst h3
      exact Nat.lt_succ_of_lt (ih hx)

theorem replaceAllAux_fuel (repl : String → String) :
    ∀ (n : Nat) (l : List Char), l.length ≤ n → ∀ f g, l.length ≤ f → l.length ≤ g →
      replaceAllAux repl f l = replaceAllAux repl g l := by
  intro n
  induction n with
  | zero =>
    intro l hl f g _ _
    have : l = [] := List.length_eq_zero.mp (Nat.le_zero.mp hl)
    subst this
    cases f <;> cases g <;> simp [replaceAllAux]
  | succ n ih =>
    intro l hl f g hf hg
    cases l with
    | nil => cases f <;> cases g <;> simp [replaceAllAux]
    | cons c rest =>
      simp only [List.length_cons] at hl hf hg
      obtain ⟨f1, rfl⟩ : ∃ f1, f = f1 + 1 := ⟨f - 1, by omega⟩
      obtain ⟨g1, rfl⟩ : ∃ g1, g = g1 + 1 := ⟨g - 1, by omega⟩
      simp only [replaceAllAux]
      cases hm : matchPh (c :: rest) with
      | some x =>
        obtain ⟨cap, after⟩ := x
        have hla : after.length < rest.length + 1 := matchPh_length hm
        exact congrArg _ (ih after (by omega) f1 g1 (by omega) (by omega))
      | none =>
        exact congrArg _ (ih rest (by omega) f1 g1 (by omega) (by omega))

theorem specReplaceAux_fuel (repl : String → String) :
    ∀ (n : Nat) (l : List Char), l.length ≤ n → ∀ f g, l.length ≤ f → l.length ≤ g →
      specReplaceAux repl f l = specReplaceAux repl g l := by
  intro n
  induction n with
  | zero =>
    intro l hl f g _ _
    have : l = [] := List.length_eq_zero.mp (Nat.le_zero.mp hl)
    subst this
    cases f <;> cases g <;> simp [specReplaceAux, findPh]
  | succ n ih =>
    intro l hl f g hf hg
    cases hfind : findPh l with
    | none => cases f <;> cases g <;> simp [specReplaceAux, hfind]
    | some x =>
      obtain ⟨pre, cap, after⟩ := x
      have hne : l ≠ [] := by
        intro h; subst h; simp [findPh] at hfind
      have hlen : 1 ≤ l.length := by
        cases l with
        | nil => exact absurd rfl hne
        | cons a b => simp
      obtain ⟨f1, rfl⟩ : ∃ f1, f = f1 + 1 := ⟨f - 1, by omega⟩
      obtain ⟨g1, rfl⟩ : ∃ g1, g = g1 + 1 := ⟨g - 1, by omega⟩
      have hla : after.length < l.length := findPh_length hfind
      simp only [specReplaceAux, hfind]
      exact congrArg (fun s => pre ++ (repl cap).toList ++ s)
        (ih after (by omega) f1 g1 (by omega) (by omega))

theorem replaceAllAux_of_findPh_none (repl : String → String) :
    ∀ (f : Nat) {l : List Char}, findPh l = none → replaceAllAux repl f l = l := by
  intro f
  induction f with
  | zero => intro l _; rfl
  | succ f ih =>
    intro l h
    cases l with
    | nil => rfl
    | cons c rest =>
      rw [findPh] at h
      cases hm : matchPh (c :: rest) with
      | some x => rw [hm] at h; simp at h
      | none =>
        rw [hm] at h
        simp only [Option.map_eq_none'] at h
        simp only [replaceAllAux, hm]
        exact congrArg _ (ih h)

theorem specReplaceAux_of_some (repl : String → String) {l pre after : List Char}
    {cap : String} (h : findPh l = some (pre, cap, after)) :
    ∀ f, l.length ≤ f →
      specReplaceAux repl f l =
        pre ++ (repl cap).toList ++ specReplaceAux repl after.length after := by
  intro f hf
  have hne : l ≠ [] := by intro hl; subst hl; simp [findPh] at h
  have hlen : 1 ≤ l.length := by
    cases l with
    | nil => exact absurd rfl hne
    | cons a b => simp
  obtain ⟨f1, rfl⟩ : ∃ f1, f = f1 + 1 := ⟨f - 1, by omega⟩
  have hla : after.length < l.length := findPh_length h
  simp only [specReplaceAux, h]
  exact congrArg (fun s => pre ++ (repl cap).toList ++ s)
    (specReplaceAux_fuel repl f1 after (by omega) f1 after.length (by omega) (by omega))

theorem replaceAll_eq_specReplace (repl : String → String) :
    ∀ (n : Nat) (l : List Char), l.length ≤ n →
      replaceAllAux repl l.length l = specReplaceAux repl l.length l := by
  intro n
  induction n with
  | zero =>
    intro l hl
    have : l = [] := List.length_eq_zero.mp (Nat.le_zero.mp hl)
    subst this; rfl
  | succ n ih =>
    intro l hl
    cases l with
    | nil => rfl
    | cons c rest =>
      simp only [List.length_cons] at hl ⊢
      cases hm : matchPh (c :: rest) with
      | some x =>
        obtain ⟨cap, after⟩ := x
        have hfind : findPh (c :: rest) = some ([], cap, after) := by
          rw [findPh, hm]
        have hla : after.length < rest.length + 1 := matchPh_length hm
        rw [specReplaceAux_of_some repl hfind (rest.length + 1) (by simp)]
        simp only [replaceAllAux, hm, List.nil_append]
        rw [replaceAllAux_fuel repl rest.length after (by omega) rest.length after.length
          (by omega) (by omega)]
        exact congrArg _ (ih after (by omega))
      | none =>
        simp only [replaceAllAux, hm]
        cases hres : findPh rest with
        | none =>
          have hfind : findPh (c :: rest) = none := by
            rw [findPh, hm, hres]; rfl
          rw [replaceAllAux_of_findPh_none repl rest.length hres]
          rw [specReplaceAux, hfind]
        | some y =>
          obtain ⟨pre, cap, after⟩ := y
          have hfind : findPh (c :: rest) = some (c :: pre, cap, after) := by
            rw [findPh, hm, hres]; rfl
          have hla : after.length < rest.length := findPh_length hres
          rw [specReplaceAux_of_some repl hfind (rest.length + 1) (by simp)]
          rw [ih rest (by omega)]
          rw [specReplaceAux_of_some repl hres rest.length (by omega)]
          simp

theorem replaceAllList_eq (repl : String → String) (l : List Char) :
    replaceAllList repl l = specReplace repl l :=
  replaceAll_eq_specReplace repl l.length l (Nat.le_refl _)

theorem goTrimSpaceList_eq_specTrim (l : List Char) : goTrimSpaceList l = specTrim l := by
  unfold goTrimSpaceList specTrim
  induction l with
  | nil => rfl
  | cons c t ih =>
    rw [List.reverse_cons, List.dropWhile_append]
    by_cases he : (t.reverse.dropWhile goUnicodeSpace).isEmpty
    · have he' : t.reverse.dropWhile goUnicodeSpace = [] := List.isEmpty_iff.mp he
      rw [if_pos he]
      by_cases hc : goUnicodeSpace c
      · rw [List.dropWhile_cons]
        simp only [hc, if_true]
        rw [ih, he']
        simp [List.dropWhile_cons, hc]
      · simp [List.dropWhile_cons, List.dropWhile_append, List.reverse_cons, hc, he']
    · rw [if_neg he]
      rw [List.reverse_append]
      by_cases hc : goUnicodeSpace c
      · rw [List.dropWhile_cons]
        simp only [hc, if_true]
        rw [ih]
        simp [List.dropWhile_cons, hc]
      · simp [List.dropWhile_cons, List.dropWhile_append, List.reverse_cons, hc, he]

theorem collapseWsAux_spec (l : List Char) :
    collapseWsAux false l =
      squeezeSpaces (l.map (fun c => if goRegexSpace c then ' ' else c)) ∧
    ' ' :: collapseWsAux true l =
      squeezeSpaces (' ' :: l.map (fun c => if goRegexSpace c then ' ' else c)) := by
  induction l with
  | nil => exact ⟨rfl, rfl⟩
  | cons c t ih =>
    obtain ⟨ih1, ih2⟩ := ih
    by_cases hc : goRegexSpace c
    · have hfc : (if goRegexSpace c then ' ' else c) = ' ' := by simp [hc]
      have hstep1 : collapseWsAux false (c :: t) = ' ' :: collapseWsAux true t := by
        simp [collapseWsAux, hc]
      have hstep2 : collapseWsAux true (c :: t) = collapseWsAux true t := by
        simp [collapseWsAux, hc]
      constructor
      · rw [hstep1, List.map_cons, hfc]
        exact ih2
      · rw [hstep2, List.map_cons, hfc, squeezeSpaces, if_pos ⟨rfl, rfl⟩]
        exact ih2
    · have hcne : ¬(c = ' ') := by
        intro h
        subst h
        exact hc (by decide)
      have hfc : (if goRegexSpace c then ' ' else c) = c := by simp [hc]
      have hstep1 : collapseWsAux false (c :: t) = c :: collapseWsAux false t := by
        simp [collapseWsAux, hc]
      have hstep2 : collapseWsAux true (c :: t) = c :: collapseWsAux false t := by
        simp [collapseWsAux, hc]
      have h1 : collapseWsAux false (c :: t) =
          squeezeSpaces ((c :: t).map (fun c => if goRegexSpace c then ' ' else c)) := by
        rw [hstep1, List.map_cons, hfc]
        cases t with
        | nil => rfl
        | cons d ts =>
          rw [List.map_cons, squeezeSpaces, if_neg (fun hand => hcne hand.1)]
          simp only [List.map_cons] at ih1
          exact congrArg _ ih1
      refine ⟨h1, ?_⟩
      rw [hstep2, List.map_cons, hfc, squeezeSpaces, if_neg (fun hand => hcne hand.2)]
      rw [hstep1, List.map_cons, hfc] at h1
      exact congrArg _ h1

theorem collapseWsList_eq (l : List Char) : collapseWsList l = specCollapse l :=
  (collapseWsAux_spec l).1

/-- Claim C5: for every content string and user, `resolvePlaceholders`
replaces every substring matching `\{\{customFields\.([a-f0-9-]+)\}\}` with
the user's field value for the captured id (empty when absent), then strips
leading/trailing whitespace and collapses every internal whitespace run to a
single space — formalised as equality with the independently-worded
`specResolve` pipeline. -/
theorem resolvePlaceholders_eq_spec (u : User) (content : String) :
    resolvePlaceholders u content = specResolve u content := by
  by_cases h : content = ""
  · subst h; rfl
  · simp only [resolvePlaceholders, specResolve, if_neg h, goTrimSpace]
    show String.mk (collapseWsList (goTrimSpaceList
        (replaceAllList (fun fid => u.GetFieldValue fid) content.toList))) = _
    rw [collapseWsList_eq, goTrimSpaceList_eq_specTrim, replaceAllList_eq]

/-- Claim C1 counterexample: for the 100-wide row container with three
20-wide children and gap 0, `calculateFlexPositions` under space-evenly does
not produce the claimed x-offsets `[25, 50, 75]`. -/
theorem c1_counterexample : ¬ (c1Xs "space-evenly" = [25, 50, 75]) := by decide

/-- Claim C1 (amended): same scenario; flex-start, center and space-between
give the claimed offsets, while space-around gives `[20/3, 100/3, 60]`
(≈ [6.67, 33.33, 60]) and space-evenly gives `[10, 40, 70]`. -/
theorem c1_amended :
    c1Xs "flex-start" = [0, 20, 40] ∧
    c1Xs "center" = [20, 40, 60] ∧
    c1Xs "space-between" = [0, 40, 80] ∧
    c1Xs "space-around" = [(20 : Q) / 3, (100 : Q) / 3, 60] ∧
    c1Xs "space-evenly" = [10, 40, 70] := by
  refine ⟨by decide, by decide, by decide, by decide, by decide⟩

/-- Claim C2 counterexample: the shared client's timeout is not 5 seconds and
the transport does not allow 50 idle connections per host. -/
theorem c2_counterexample :
    ¬ (httpClientTimeoutSeconds = 5 ∧ transportMaxIdleConns ≥ 100 ∧
       transportMaxIdleConnsPerHost ≥ 50 ∧ transportIdleConnTimeoutSeconds = 90) := by
  decide

/-- Claim C2 (amended): the shared client uses a 10-second timeout over a
transport with 100 idle connections, 20 idle connections per host and a
90-second idle timeout; any response whose status is not 2xx (the code checks
`!= 200`) fails with a bad-status error carrying the status. -/
theorem c2_amended :
    httpClientTimeoutSeconds = 10 ∧ transportMaxIdleConns = 100 ∧
    transportMaxIdleConnsPerHost = 20 ∧ transportIdleConnTimeoutSeconds = 90 ∧
    ∀ (status : Nat) (body : List Nat), status < 200 ∨ 300 ≤ status →
      downloadFile (Except.ok (status, body)) =
        Except.error (FetchErr.badStatus status) := by
  refine ⟨rfl, rfl, rfl, rfl, ?_⟩
  intro status body h
  have hne : status ≠ 200 := by omega
  simp [downloadFile, hne]

/-- Claim C2 amended witness: a 404 response fails with bad-status 404. -/
theorem c2_amended_witness :
    downloadFile (Except.ok (404, [])) = Except.error (FetchErr.badStatus 404) :=
  c2_amended.2.2.2.2 404 [] (by omega)

/-- Claim C3 evaluation at the failing input: `Generate`'s sort
(`sort.Slice`, Go's unstable pdqsort) renders the two z-index-2 layers in the
order `L12, L2`, the reverse of their input order `L2, L12`, even though the
overall order is ascending in z-index. -/
theorem c3_unstable_order_eval :
    renderOrder c3Template =
      ["L3", "L12", "L2", "L4", "L5", "L0", "L7", "L8", "L10", "L6", "L1", "L11", "L9"] ∧
    c3Template.design.layers.map Layer.id =
      ["L0", "L1", "L2", "L3", "L4", "L5", "L6", "L7", "L8", "L9", "L10", "L11", "L12"] ∧
    (c3Template.design.layers.filter (fun l => l.zIndex = 2)).map Layer.id = ["L2", "L12"] ∧
    ((sortLayersByZ c3Template.design.layers).map Layer.zIndex).Sorted (· ≤ ·) := by
  refine ⟨by decide, by decide, by decide, ?_⟩
  rw [show (sortLayersByZ c3Template.design.layers).map Layer.zIndex =
    [1, 2, 2, 3, 4, 5, 6, 7, 8, 10, 11, 12, 20] from by decide]
  decide

/-- Claim C4 evaluation at the failing input: `Generate` sorts
`template.Design.Layers` in place, so after the call the template's root
layer order is `[1, 2]` although it was `[2, 1]` before. -/
theorem c4_template_mutation_eval :
    ((generate probeEnv c4Template emptyUser []).2).design.layers.map Layer.zIndex = [1, 2] ∧
    c4Template.design.layers.map Layer.zIndex = [2, 1] := by
  exact ⟨by decide, by decide⟩

/-- Claim C6 counterexample: with the user's field id `ABC` (uppercase, not
matched by `[a-f0-9-]`), the placeholder is left verbatim, so the output is
not the claimed `"Hello world !"`. -/
theorem c6_counterexample :
    resolvePlaceholders c6UserUpper "Hello \x7b\x7bcustomFields.ABC\x7d\x7d!" =
      "Hello \x7b\x7bcustomFields.ABC\x7d\x7d!" ∧
    ¬ ("Hello \x7b\x7bcustomFields.ABC\x7d\x7d!" = "Hello world !") := by
  exact ⟨by decide, by decide⟩

/-- Claim C6 (amended): with a lowercase field id `abc` mapped to
`"world "`, resolving `"Hello {{customFields.abc}}!"` yields
`"Hello world !"`. -/
theorem c6_amended :
    resolvePlaceholders c6UserLower "Hello \x7b\x7bcustomFields.abc\x7d\x7d!" =
      "Hello world !" := by decide

/-- Shared shape lemma: `Generate` only fails with the output-wrapping error
message. -/
theorem generate_fst (env : Env) (t : Template) (u : User)
    (cache : List (String × List Nat)) :
    (generate env t u cache).1 = outputWrap (env.output (generateRun env t u cache).1) := rfl

theorem generate_error_msg (env : Env) (t : Template) (u : User)
    (cache : List (String × List Nat)) (e : String)
    (h : (generate env t u cache).1 = Except.error e) :
    ∃ msg, e = "failed to output PDF: " ++ msg ∧
      env.output (generateRun env t u cache).1 = Except.error msg := by
  rw [generate_fst] at h
  cases ho : env.output (generateRun env t u cache).1 with
  | ok b => rw [ho] at h; simp [outputWrap] at h
  | error msg =>
    rw [ho] at h
    simp only [outputWrap, Except.error.injEq] at h
    exact ⟨msg, h.symm, rfl⟩

/-- The wrapped output error message is never empty. -/
theorem outputMsg_ne_empty (msg : String) : "failed to output PDF: " ++ msg ≠ "" := by
  intro h
  have hlen := congrArg String.length h
  rw [String.length_append] at hlen
  have h22 : ("failed to output PDF: " : String).length = 22 := rfl
  have h0 : ("" : String).length = 0 := rfl
  omega

/-- Claim C7 counterexample: a visible qrcode layer whose content resolves to
`"{{x"` (non-empty), with empty user identifier and id, makes `renderQRCode`
return the empty-content error although not all three fallback sources are
empty — refuting the claimed `iff`. -/
theorem c7_counterexample :
    (renderQRCode probeEnv c7Gen c7Layer 0 0 []).2 = some RenderErr.qrEmptyContent ∧
    ¬ (resolvePlaceholders c7Gen.user c7Layer.content = "" ∧
       c7Gen.user.identifier = "" ∧ c7Gen.user.id = "") := by
  exact ⟨by decide, by decide⟩

/-- Claim C7 (amended): for a qrcode layer with non-zero opacity, the encoded
content is the chain (resolved content; identifier when that is empty or
still contains `{{`; id when that is empty): `renderQRCode` proceeds to
encode/register/draw exactly that chain when it is non-empty, and returns the
empty-qr-content error iff the chain is empty, i.e. iff the resolved content
is empty or still contains `{{` while both the identifier and the id are
empty.  (Layers with opacity 0 are skipped without error.) -/
theorem c7_amended (env : Env) (g : PDFGenerator) (layer : Layer) (x y : Q)
    (st : PdfState) (hop : layer.style.opacity ≠ 0) :
    ((renderQRCode env g layer x y st).2 = some RenderErr.qrEmptyContent ↔
      qrChain g.user layer.content = "") ∧
    (qrChain g.user layer.content = "" ↔
      ((resolvePlaceholders g.user layer.content = "" ∨
        containsSubstr (resolvePlaceholders g.user layer.content) "\x7b\x7b" = true) ∧
       g.user.identifier = "" ∧ g.user.id = "")) ∧
    (qrChain g.user layer.content ≠ "" →
      renderQRCode env g layer x y st =
        qrContinue env g layer x y st (qrChain g.user layer.content)) := by
  have core : renderQRCode env g layer x y st =
      (if qrChain g.user layer.content = "" then (st, some RenderErr.qrEmptyContent)
       else qrContinue env g layer x y st (qrChain g.user layer.content)) := by
    unfold renderQRCode qrChain qrContinue qrSizePx
    rw [if_neg hop]
  refine ⟨?_, ?_, ?_⟩
  · rw [core]
    by_cases hch : qrChain g.user layer.content = ""
    · simp [hch]
    · rw [if_neg hch]
      simp only [hch, iff_false]
      unfold qrContinue
      cases env.qrEncode (qrChain g.user layer.content) (qrSizePx layer g.dpi) with
      | error e => simp
      | ok bytes =>
        by_cases hr : env.registerOk bytes = false
        · simp [hr]
        · simp [hr]
  · simp only [qrChain]
    by_cases h1 : resolvePlaceholders g.user layer.content = "" ∨
        containsSubstr (resolvePlaceholders g.user layer.content) "\x7b\x7b" = true
    · simp only [if_pos h1]
      by_cases h2 : g.user.identifier = ""
      · simp [h1, h2]
      · simp [h1, h2]
    · have hr : ¬ (resolvePlaceholders g.user layer.content = "") := fun h => h1 (Or.inl h)
      have hb : ¬ (containsSubstr (resolvePlaceholders g.user layer.content) "\x7b\x7b" = true) :=
        fun h => h1 (Or.inr h)
      simp only [if_neg h1]
      simp [hr, hb]
  · intro hch
    rw [core, if_neg hch]

/-- Claim C7 amended witness: a visible qrcode layer with empty content and
user identifier `"7882919302"` does not produce the empty-content error, and
proceeds to encode the identifier. -/
theorem c7_amended_witness :
    ¬ ((renderQRCode probeEnv c7Gen2 c7Layer2 0 0 []).2 = some RenderErr.qrEmptyContent) ∧
    renderQRCode probeEnv c7Gen2 c7Layer2 0 0 [] =
      qrContinue probeEnv c7Gen2 c7Layer2 0 0 [] (qrChain c7Gen2.user c7Layer2.content) := by
  have h := c7_amended probeEnv c7Gen2 c7Layer2 0 0 [] (by decide)
  exact ⟨fun he => (by decide : ¬ (qrChain c7Gen2.user c7Layer2.content = "")) (h.1.mp he),
         h.2.2 (by decide)⟩

/-- Claim C8: per-layer render failures never surface from `Generate`; the
returned error exists only when the final `pdf.Output` emission fails, and
when emission succeeds the PDF bytes are returned even if some layers
errored. -/
theorem c8_generate_error_only_from_output (env : Env) (t : Template)
    (u : User) (cache : List (String × List Nat)) :
    (∀ bytes, env.output (generateRun env t u cache).1 = Except.ok bytes →
      (generate env t u cache).1 = Except.ok bytes) ∧
    (∀ e, (generate env t u cache).1 = Except.error e →
      ∃ msg, e = "failed to output PDF: " ++ msg ∧
        env.output (generateRun env t u cache).1 = Except.error msg) := by
  constructor
  · intro bytes h
    rw [generate_fst, h]
    rfl
  · intro e h
    exact generate_error_msg env t u cache e h

/-- Claim C8 witness: with a broken image layer (cache miss and failing
on-demand fetch) the render loop records an error, yet `Generate` returns the
emitted bytes. -/
theorem c8_witness :
    (generate c8Env c8Template emptyUser []).1 = Except.ok [7] ∧
    (generateRun c8Env c8Template emptyUser []).2 =
      [RenderErr.imageOnDemandFailed "img" "404 not found"] :=
  ⟨(c8_generate_error_only_from_output c8Env c8Template emptyUser []).1 [7] rfl,
   by decide⟩

/-- Claim C10: any image or qrcode layer whose style opacity is 0 is skipped
without drawing and without error, and Go JSON decoding gives opacity 0 both
when the style block is absent and when only the opacity field is absent. -/
theorem c10_opacity_zero_skips :
    (∀ (env : Env) (g : PDFGenerator) (layer : Layer) (x y : Q) (st : PdfState),
      layer.style.opacity = 0 →
        renderImage env g layer x y st = (st, none) ∧
        renderQRCode env g layer x y st = (st, none)) ∧
    (∀ j : StyleJson, j.opacity = none → (decodeStyle (some j)).opacity = 0) ∧
    (decodeStyle none).opacity = 0 := by
  refine ⟨?_, ?_, rfl⟩
  · intro env g layer x y st h
    constructor
    · simp [renderImage, h]
    · simp [renderQRCode, h]
  · intro j hj
    simp [decodeStyle, hj]

/-- Claim C10 witness: an opacity-0 image layer with a concrete URL is
skipped with no drawing and no error. -/
theorem c10_witness :
    renderImage probeEnv c7Gen2 c10Layer 1 2 [] = ([], none) ∧
    renderQRCode probeEnv c7Gen2 c10Layer 1 2 [] = ([], none) :=
  (c10_opacity_zero_skips.1 probeEnv c7Gen2 c10Layer 1 2 [] (by decide))

theorem batchLoop_length (env : Env) (dc : List (String × List Nat)) :
    ∀ (us : List UserData) (t : Template),
      (batchLoop env dc t us).length = us.length := by
  intro us
  induction us with
  | nil => intro t; rfl
  | cons ud rest ih =>
    intro t
    simp only [batchLoop]
    cases hbw : batchWorker env t dc ud with
    | mk r t2 => simp [ih]

theorem batchLoop_get (env : Env) (dc : List (String × List Nat)) :
    ∀ (us : List UserData) (t : Template) (i : Nat), i < us.length →
      ∃ r ud t', us[i]? = some ud ∧ (batchLoop env dc t us)[i]? = some r ∧
        r = (batchWorker env t' dc ud).1 := by
  intro us
  induction us with
  | nil => intro t i h; simp at h
  | cons ud rest ih =>
    intro t i h
    simp only [batchLoop]
    cases hbw : batchWorker env t dc ud with
    | mk r t2 =>
      cases i with
      | zero =>
        refine ⟨r, ud, t, by simp, by simp, ?_⟩
        rw [hbw]
      | succ j =>
        have hj : j < rest.length := by simpa using h
        obtain ⟨r', ud', t'', h1, h2, h3⟩ := ih t2 j hj
        exact ⟨r', ud', t'', by simpa using h1, by simpa using h2, h3⟩

/-- The result slot one worker writes: user id and identifier copied from the
input user; on success an empty error and the base64 payload; on failure a
non-empty error and no payload. -/
theorem batchWorker_shape (env : Env) (t : Template)
    (dc : List (String × List Nat)) (ud : UserData) :
    ((batchWorker env t dc ud).1).userId = ud.user.id ∧
    ((batchWorker env t dc ud).1).identifier = ud.user.identifier ∧
    (((batchWorker env t dc ud).1).success = true →
      ((batchWorker env t dc ud).1).error = "" ∧
      ∃ b, ((batchWorker env t dc ud).1).pdfBase64 = some b) ∧
    (((batchWorker env t dc ud).1).success = false →
      ((batchWorker env t dc ud).1).error ≠ "" ∧
      ((batchWorker env t dc ud).1).pdfBase64 = none) := by
  unfold batchWorker
  cases hg : generate env t ud.user dc with
  | mk res t2 =>
    cases res with
    | ok bytes => exact ⟨rfl, rfl, fun _ => ⟨rfl, bytes, rfl⟩, by simp⟩
    | error e =>
      refine ⟨rfl, rfl, by simp, fun _ => ⟨?_, rfl⟩⟩
      have hge : (generate env t ud.user dc).1 = Except.error e := by rw [hg]
      obtain ⟨msg, hmsg, -⟩ := generate_error_msg env t ud.user dc e hge
      rw [hmsg]
      exact outputMsg_ne_empty msg

/-- Claim C9: the batch handler rejects 0 users and more than 500 users with
the 400 responses; an accepted batch responds with Total = N, the result list
produced slot-by-slot (result i built from user i), per-slot success/error
shape, and the aggregate Success flag true exactly when every slot
succeeded. -/
theorem c9_batch_contract (env : Env) (req : BatchRequest)
    (dc : List (String × List Nat)) :
    (req.users.length = 0 →
      generateBadgeBatch env req dc = BatchHttpResponse.badRequest "No users provided") ∧
    (req.users.length > 500 →
      generateBadgeBatch env req dc =
        BatchHttpResponse.badRequest "Maximum 500 users per batch") ∧
    (req.users.length ≠ 0 → req.users.length ≤ 500 →
      generateBadgeBatch env req dc =
        BatchHttpResponse.ok
          (decide (∀ r ∈ batchLoop env dc req.template req.users, r.success = true))
          req.users.length (batchLoop env dc req.template req.users)) ∧
    (∀ i, i < req.users.length →
      ∃ r ud t', req.users[i]? = some ud ∧
        (batchLoop env dc req.template req.users)[i]? = some r ∧
        r = (batchWorker env t' dc ud).1 ∧
        r.userId = ud.user.id ∧ r.identifier = ud.user.identifier ∧
        (r.success = true → r.error = "" ∧ ∃ b, r.pdfBase64 = some b) ∧
        (r.success = false → r.error ≠ "" ∧ r.pdfBase64 = none)) := by
  refine ⟨?_, ?_, ?_, ?_⟩
  · intro h
    simp [generateBadgeBatch, h]
  · intro h
    have h0 : ¬ (req.users.length = 0) := by omega
    simp [generateBadgeBatch, h0, h]
  · intro h0 h500
    have hgt : ¬ (req.users.length > 500) := by omega
    simp only [generateBadgeBatch, if_neg h0, if_neg hgt]
    have hlen := batchLoop_length env dc req.users req.template
    rw [hlen]
    have hiff :
        ((batchLoop env dc req.template req.users).filter (fun r => r.success)).length =
            (batchLoop env dc req.template req.users).length ↔
          ∀ r ∈ batchLoop env dc req.template req.users, r.success = true := by
      exact List.filter_length_eq_length
    have hdec :
        (decide (((batchLoop env dc req.template req.users).filter
            (fun r => r.success)).length =
          (batchLoop env dc req.template req.users).length)) =
        (decide (∀ r ∈ batchLoop env dc req.template req.users, r.success = true)) := by
      exact decide_eq_decide.mpr hiff
    rw [hlen] at hdec
    rw [hdec]
  · intro i hi
    obtain ⟨r, ud, t', h1, h2, h3⟩ := batchLoop_get env dc req.users req.template i hi
    obtain ⟨s1, s2, s3, s4⟩ := batchWorker_shape env t' dc ud
    rw [← h3] at s1 s2 s3 s4
    exact ⟨r, ud, t', h1, h2, h3, s1, s2, s3, s4⟩

set_option maxRecDepth 4096 in
/-- Claim C9 witness: the 0-user and 501-user rejections, an accepted 2-user
batch response, and its concrete slots — user `u1` fails (QR encoding breaks,
leaving an empty page that fails to emit) with a non-empty error while user
`u2` still receives a badge, so the aggregate Success flag is false. -/
theorem c9_batch_contract_witness :
    generateBadgeBatch c9Env c9ReqEmpty [] =
      BatchHttpResponse.badRequest "No users provided" ∧
    generateBadgeBatch c9Env c9ReqBig [] =
      BatchHttpResponse.badRequest "Maximum 500 users per batch" ∧
    generateBadgeBatch c9Env c9Req [] =
      BatchHttpResponse.ok
        (decide (∀ r ∈ batchLoop c9Env [] c9Req.template c9Req.users, r.success = true))
        c9Req.users.length (batchLoop c9Env [] c9Req.template c9Req.users) ∧
    batchLoop c9Env [] c9Req.template c9Req.users =
      [⟨"id1", "u1", false, "failed to output PDF: no content", none⟩,
       ⟨"id2", "u2", true, "", some [3]⟩] :=
  ⟨(c9_batch_contract c9Env c9ReqEmpty []).1 (by decide),
   (c9_batch_contract c9Env c9ReqBig []).2.1 (by decide),
   (c9_batch_contract c9Env c9Req []).2.2.1 (by decide) (by decide),
   by decide⟩

end BadgeService
